import Mathlib

/-!
# Verification of the PTV train-to-bus recommendation core

A shallow embedding of `api/departures.js` (mirrored by `server.mjs`) from the
`ptv-check` repository, together with proofs about the Departure Normalizer,
Station Arrival Projector, Transfer Matcher, Itinerary Assembler and Ranker.

Modelling conventions:
* Instants are epoch milliseconds (`Int`).  A JavaScript `Date` that may be
  Invalid (its time value is `NaN`) is modelled as `Option Int`, with `none`
  playing the role of `NaN` / Invalid Date; every arithmetic or comparison
  strictness of `NaN` is made explicit (`addMinutes`, `timeGe`).
* A raw timestamp field can be absent (JS `undefined`/`null`/`''`, all falsy),
  present but unparseable (truthy, parses to an Invalid Date), or a valid
  instant; `TimeField` distinguishes the three, which is exactly what
  `new Date(estimated_departure_utc || scheduled_departure_utc)` observes.
* Thrown exceptions caught by the handler's `try/catch` (the `TypeError` from
  `.filter` on an absent `departures` array, the `RangeError` from
  `toISOString()` on an Invalid Date) are modelled by `Except String`.
* ISO strings in the JSON response are represented by the instants they
  denote: `toISOString` is injective on valid dates and the handler re-parses
  them with `new Date` only to compare, so the representation is faithful.
* `Array.prototype.sort` with the comparator `(a, b) => a.time - b.time` is a
  stable ascending sort when every key is a number; it is embedded as a
  stable insertion sort `sortByKey`.  When a key is `NaN` the JS order is
  implementation-defined; the embedding fixes `NaN` as key `0` (`keyOf`), and
  no theorem below depends on the order of a list containing an invalid key
  except on singleton lists, where every order coincides.
-/

/-- One raw timestamp field of a departure record, as seen by
`new Date(estimated_departure_utc || scheduled_departure_utc)`:
absent covers the JS-falsy cases (`undefined`, `null`, `''`),
invalid is a present but unparseable string (parses to an Invalid Date),
valid t parses to the instant `t` (epoch ms). -/
inductive TimeField where
  | absent : TimeField
  | invalid : TimeField
  | valid : Int → TimeField
deriving DecidableEq, Repr

/-- A raw departure record from a PTV payload (the fields the core reads). -/
structure RawDeparture where
  route_id : Nat
  direction_id : Option Int
  scheduled_departure_utc : TimeField
  estimated_departure_utc : TimeField
deriving DecidableEq, Repr

/-- The `routes` expansion entry for one route id. -/
structure RouteInfo where
  route_number : Option String
  route_short_name : Option String
deriving DecidableEq, Repr

/-- A PTV departures payload as the handler receives it: the `departures`
array may be absent altogether, and the `routes` object may be absent
(the code reads it with `data.routes?.[...]`). -/
structure Payload where
  departures : Option (List RawDeparture)
  routes : Option (List (Nat × RouteInfo))
deriving DecidableEq, Repr

/-- JS `a || b` on a timestamp field: falsy (absent) falls through to `b`. -/
def jsOrTime (a b : TimeField) : TimeField :=
  match a with
  | .absent => b
  | f => f

/-- `new Date(field)`: `none` is an Invalid Date (time value `NaN`). -/
def parseDate : TimeField → Option Int
  | .valid t => some t
  | _ => none

/-- The Normalizer's resolved instant:
`new Date(dep.estimated_departure_utc || dep.scheduled_departure_utc)`. -/
def resolveTime (d : RawDeparture) : Option Int :=
  parseDate (jsOrTime d.estimated_departure_utc d.scheduled_departure_utc)

/-- `new Date(t.getTime() + m * 60 * 1000)`; `NaN` propagates. -/
def addMinutes (t : Option Int) (m : Int) : Option Int :=
  t.map (fun x => x + m * 60000)

/-- JS `a >= b` on two `Date`s: both are coerced to numbers and any
comparison involving `NaN` is false. -/
def timeGe : Option Int → Option Int → Bool
  | some a, some b => a ≥ b
  | _, _ => false

/-- Numeric key of a possibly-invalid date for the sort comparator.  On valid
dates this is the time value; for an Invalid Date the JS comparator returns
`NaN` and the engine's order is unspecified, so the `0` here is an arbitrary
choice that no theorem relies on (see the module docstring). -/
def keyOf : Option Int → Int
  | some t => t
  | none => 0

/-- JS `s || dflt` on an optional string field (empty string is falsy). -/
def jsOrString (o : Option String) (dflt : String) : String :=
  match o with
  | some s => if s = "" then dflt else s
  | none => dflt

/-- `toISOString()`: throws `RangeError: Invalid time value` on an Invalid
Date; a valid date is represented by its instant (the ISO string denotes it
injectively). -/
def toISO : Option Int → Except String Int
  | some t => .ok t
  | none => .error "Invalid time value"

/-- `Math.round((a - b) / 60000)` on an exact millisecond difference:
round-half-up (toward plus infinity), i.e. `⌊x/60000 + 1/2⌋`. -/
def jsRound (diffMs : Int) : Int :=
  (2 * diffMs + 60000).fdiv 120000

section SortByKey

variable {α : Type _}

/-- One step of the stable ascending insertion sort: `x` is placed before the
first element whose key is not smaller, hence before any element of equal
key that was inserted earlier from further right in the original list. -/
def insertByKey (key : α → Int) (x : α) : List α → List α
  | [] => [x]
  | y :: ys => if key y < key x then y :: insertByKey key x ys else x :: y :: ys

/-- Stable ascending sort by an integer key: the embedding of
`Array.prototype.sort((a, b) => key a - key b)` (ES2019 sort is stable, and
a stable ascending reordering is unique, so any stable implementation agrees
with this one). -/
def sortByKey (key : α → Int) (l : List α) : List α :=
  l.foldr (insertByKey key) []

end SortByKey

/-! ## Static configuration (`api/departures.js` lines 27-49) -/

/-- Approximate bus travel times to Monash Clayton (minutes); the source
object is only ever indexed at 733, 703, 737 and 742. -/
def BUS_TRAVEL_TIMES : Nat → Int
  | 733 => 17
  | 703 => 13
  | 737 => 15
  | 742 => 12
  | _ => 0

/-- Minutes between train stations, from Mount Waverley. -/
structure StationOffsets where
  mountWaverley : Int
  syndal : Int
  glenWaverley : Int
deriving DecidableEq, Repr

def TRAIN_TRAVEL_FROM_MT_WAVERLEY : StationOffsets :=
  { mountWaverley := 0, syndal := 3, glenWaverley := 6 }

/-- Minimum transfer time (minutes). -/
def MIN_TRANSFER_TIME : Int := 3

/-! ## Departure Normalizer and feed plumbing -/

/-- Look up `data.routes?.[route_id]` in an optional routes object. -/
def lookupRoute (routes : Option (List (Nat × RouteInfo))) (rid : Nat) :
    Option RouteInfo :=
  routes.bind (fun l => (l.find? (fun p => p.1 == rid)).map (fun p => p.2))

/-- The payload with its `departures` array resolved (after
`getBusDepartures` has filtered it in place). -/
structure BusData where
  departures : List RawDeparture
  routes : Option (List (Nat × RouteInfo))
deriving DecidableEq, Repr

/-- The pure part of `getBusDepartures` (lines 83-97): filter the payload's
departures to the requested route numbers, matching on `route_number` or
`route_short_name`.  Reading `.filter` off an absent `departures` array
throws a `TypeError`, which rejects the whole `Promise.all`. -/
def getBusDeparturesFilter (data : Payload) (routeNumbers : List String) :
    Except String BusData :=
  match data.departures with
  | none => .error "TypeError: undefined departures"
  | some deps =>
      .ok { departures := deps.filter (fun dep =>
              match lookupRoute data.routes dep.route_id with
              | none => false
              | some route => routeNumbers.any (fun num =>
                  route.route_number == some num ||
                  route.route_short_name == some num)),
            routes := data.routes }

/-- A departure record enriched by the handler's spread:
`{ ...dep, routeNumber: buses.routes?.[dep.route_id]?.route_number || dflt }`. -/
structure EnrichedDep where
  raw : RawDeparture
  routeNumber : String
deriving DecidableEq, Repr

def enrichList (b : BusData) (dflt : String) : List EnrichedDep :=
  b.departures.map (fun dep =>
    { raw := dep,
      routeNumber :=
        jsOrString ((lookupRoute b.routes dep.route_id).bind
          (fun ri => ri.route_number)) dflt })

/-- A bus `NormalizedEvent`: `{ ...dep, departureTime: new Date(est || sched) }`. -/
structure NormalizedEvent where
  dep : EnrichedDep
  departureTime : Option Int
deriving DecidableEq, Repr

def normalizeBus (d : EnrichedDep) : NormalizedEvent :=
  { dep := d, departureTime := resolveTime d.raw }

/-- A train `NormalizedEvent`: `{ ...dep, arrivalTime: new Date(est || sched) }`. -/
structure TrainEvent where
  raw : RawDeparture
  arrivalTime : Option Int
deriving DecidableEq, Repr

def normalizeTrain (d : RawDeparture) : TrainEvent :=
  { raw := d, arrivalTime := resolveTime d }

/-! ## Transfer Matcher (`findNextBus`, lines 102-114) -/

/-- `findNextBus(busDepartures, trainArrival, routes, minTransferMins)`:
map each departure to its resolved time, keep those at or after
`trainArrival + minTransferMins`, sort ascending by time, return the head
(`suitableBuses[0] || null`).  The `routes` parameter is accepted and, as in
the source, never used. -/
def findNextBus (busDepartures : List EnrichedDep) (trainArrival : Option Int)
    (routes : List String) (minTransferMins : Int) : Option NormalizedEvent :=
  (sortByKey (fun e => keyOf e.departureTime)
    ((busDepartures.map normalizeBus).filter
      (fun e => timeGe e.departureTime (addMinutes trainArrival minTransferMins)))).head?

/-! ## Station Arrival Projector (handler lines 172-177) -/

structure TrainArrivals where
  mountWaverley : Option Int
  syndal : Option Int
  glenWaverley : Option Int
deriving DecidableEq, Repr

def trainArrivalsOf (t : Option Int) : TrainArrivals :=
  { mountWaverley := t,
    syndal := addMinutes t TRAIN_TRAVEL_FROM_MT_WAVERLEY.syndal,
    glenWaverley := addMinutes t TRAIN_TRAVEL_FROM_MT_WAVERLEY.glenWaverley }

/-! ## Itinerary Assembler (the five `options.push` blocks) -/

structure BusLeg where
  route : String
  departure : Int
  travelTime : Int
deriving DecidableEq, Repr

structure Itinerary where
  station : String
  trainArrival : Int
  bus : BusLeg
  arrivalAtMonash : Int
  totalMinutes : Int
deriving DecidableEq, Repr

/-- The object pushed for one successful match: destination arrival is
`busTime + travelTime * 60000`, `totalMinutes` is
`Math.round((arrivalAtMonash - now) / 60000)`. -/
def mkItinerary (now : Int) (station : String) (trainISO : Int)
    (routeNum : String) (travelTime busTime : Int) : Itinerary :=
  { station := station,
    trainArrival := trainISO,
    bus := { route := routeNum, departure := busTime, travelTime := travelTime },
    arrivalAtMonash := busTime + travelTime * 60000,
    totalMinutes := jsRound (busTime + travelTime * 60000 - now) }

/-- One conditional `options.push`: zero or one itinerary for a
(station, route) pair.  `toISOString()` is called on the station arrival and
the matched bus time while building the pushed object. -/
def buildOptionAt (now : Int) (station : String) (ta : Option Int)
    (busList : List EnrichedDep) (routeNum : String) (travelTime : Int) :
    Except String (List Itinerary) :=
  match findNextBus busList ta [routeNum] MIN_TRANSFER_TIME with
  | none => .ok []
  | some bus =>
      match toISO ta with
      | .error e => .error e
      | .ok trainISO =>
          match toISO bus.departureTime with
          | .error e => .error e
          | .ok busTime =>
              .ok [mkItinerary now station trainISO routeNum travelTime busTime]

/-- The five pushes of the handler, in source order: Mount Waverley 733,
Syndal 703, Syndal 737, Glen Waverley 742, Glen Waverley 737 (the Glen
Waverley list is first narrowed to the route's `routeNumber`). -/
def buildOptions (now : Int) (ta : TrainArrivals)
    (mtList s3List s7List gwList : List EnrichedDep) :
    Except String (List Itinerary) :=
  match buildOptionAt now "Mount Waverley" ta.mountWaverley mtList "733"
      (BUS_TRAVEL_TIMES 733) with
  | .error e => .error e
  | .ok o1 =>
  match buildOptionAt now "Syndal" ta.syndal s3List "703"
      (BUS_TRAVEL_TIMES 703) with
  | .error e => .error e
  | .ok o2 =>
  match buildOptionAt now "Syndal" ta.syndal s7List "737"
      (BUS_TRAVEL_TIMES 737) with
  | .error e => .error e
  | .ok o3 =>
  match buildOptionAt now "Glen Waverley" ta.glenWaverley
      (gwList.filter (fun b => b.routeNumber == "742")) "742"
      (BUS_TRAVEL_TIMES 742) with
  | .error e => .error e
  | .ok o4 =>
  match buildOptionAt now "Glen Waverley" ta.glenWaverley
      (gwList.filter (fun b => b.routeNumber == "737")) "737"
      (BUS_TRAVEL_TIMES 737) with
  | .error e => .error e
  | .ok o5 => .ok (o1 ++ o2 ++ o3 ++ o4 ++ o5)

/-! ## Itinerary Ranker and the whole handler -/

/-- The ranker's sort key: `new Date(o.arrivalAtMonash)` re-parses the ISO
string the assembler just produced, recovering the instant. -/
def itKey (o : Itinerary) : Int := o.arrivalAtMonash

/-- The next-train selection (handler lines 156-164): keep `direction_id === 6`,
normalize, sort ascending by resolved time, take the head. -/
def outboundOf (deps : List RawDeparture) : List TrainEvent :=
  sortByKey (fun e => keyOf e.arrivalTime)
    ((deps.filter (fun d => d.direction_id == some 6)).map normalizeTrain)

/-- Per-station projected arrivals rendered in the response. -/
structure TrainArrivalsOut where
  atMountWaverley : Int
  atSyndal : Int
  atGlenWaverley : Int
deriving DecidableEq, Repr

structure RecommendationResult where
  timestamp : Int
  nextTrain : TrainArrivalsOut
  recommendation : Option Itinerary
  allOptions : List Itinerary
deriving DecidableEq, Repr

/-- The two HTTP-200 bodies the handler can produce: the
"No upcoming trains found" payload, or a full recommendation. -/
inductive ApiResponse where
  | noTrains : Int → ApiResponse
  | result : RecommendationResult → ApiResponse
deriving DecidableEq, Repr

/-- `computeRecommendation(now, trainFeed, busFeeds)`: the handler's whole
try-block given already-fetched payloads and a fixed query instant `now`
(every `new Date()` in the source reads the clock during one request; the
spec's contract fixes it as the `now` input).  An `.error` is a thrown
exception reaching the `catch`, i.e. the HTTP-500 path. -/
def computeRecommendation (now : Int) (trainData mtP s3P s7P gwP : Payload) :
    Except String ApiResponse :=
  match getBusDeparturesFilter mtP ["733"] with
  | .error e => .error e
  | .ok mtB =>
  match getBusDeparturesFilter s3P ["703"] with
  | .error e => .error e
  | .ok s3B =>
  match getBusDeparturesFilter s7P ["737"] with
  | .error e => .error e
  | .ok s7B =>
  match getBusDeparturesFilter gwP ["742", "737"] with
  | .error e => .error e
  | .ok gwB =>
  match trainData.departures with
  | none => .error "TypeError: undefined departures"
  | some trainDeps =>
  match (outboundOf trainDeps).head? with
  | none => .ok (.noTrains now)
  | some nextTrain =>
      match buildOptions now (trainArrivalsOf nextTrain.arrivalTime)
          (enrichList mtB "733") (enrichList s3B "703")
          (enrichList s7B "737") (enrichList gwB "unknown") with
      | .error e => .error e
      | .ok opts =>
      match toISO (trainArrivalsOf nextTrain.arrivalTime).mountWaverley with
      | .error e => .error e
      | .ok atMW =>
      match toISO (trainArrivalsOf nextTrain.arrivalTime).syndal with
      | .error e => .error e
      | .ok atS =>
      match toISO (trainArrivalsOf nextTrain.arrivalTime).glenWaverley with
      | .error e => .error e
      | .ok atGW =>
          .ok (.result
            { timestamp := now,
              nextTrain := { atMountWaverley := atMW, atSyndal := atS,
                             atGlenWaverley := atGW },
              recommendation := (sortByKey itKey opts).head?,
              allOptions := sortByKey itKey opts })

/-! ## Concrete inputs used to exercise the theorems -/

/-- A record carrying only a scheduled time. -/
def rawSched (rid : Nat) (dir : Option Int) (t : Int) : RawDeparture :=
  { route_id := rid, direction_id := dir,
    scheduled_departure_utc := .valid t, estimated_departure_utc := .absent }

/-- A record with no usable timestamp at all. -/
def rawMalformed (rid : Nat) (dir : Option Int) : RawDeparture :=
  { route_id := rid, direction_id := dir,
    scheduled_departure_utc := .absent, estimated_departure_utc := .absent }

def demoTrainP : Payload :=
  { departures := some [rawSched 5 (some 6) 0], routes := none }

def malformedTrainP : Payload :=
  { departures := some [rawMalformed 5 (some 6)], routes := none }

def demoEmptyBusP : Payload := { departures := some [], routes := none }

def missingBusP : Payload := { departures := none, routes := none }

def demoBusP733 : Payload :=
  { departures := some [rawSched 1 none 600000],
    routes := some [(1, { route_number := some "733", route_short_name := none })] }

def demoTieBusP733 : Payload :=
  { departures := some [rawSched 1 none 180000],
    routes := some [(1, { route_number := some "733", route_short_name := none })] }

def demoBusP703 : Payload :=
  { departures := some [rawSched 2 none 420000],
    routes := some [(2, { route_number := some "703", route_short_name := none })] }

def demoBus (t : Int) : EnrichedDep :=
  { raw := rawSched 1 none t, routeNumber := "733" }

def demoMalformedDep : EnrichedDep :=
  { raw := rawMalformed 1 none, routeNumber := "733" }

/-- The spec scenario: arrival 10:00 as instant 0, buses at 10:01, 10:04,
10:10. -/
def demoBusList : List EnrichedDep :=
  [demoBus 60000, demoBus 240000, demoBus 600000]

def demoMixedList : List EnrichedDep := [demoMalformedDep, demoBus 240000]

def demoTrainDeps : List RawDeparture :=
  [rawSched 5 (some 6) 100000, rawSched 5 (some 6) 50000, rawSched 5 none 10000]

def demoNoDir6P : Payload :=
  { departures := some [rawSched 5 none 10000], routes := none }

def demoEmptyResult : RecommendationResult :=
  { timestamp := 0,
    nextTrain := { atMountWaverley := 0, atSyndal := 180000,
                   atGlenWaverley := 360000 },
    recommendation := none,
    allOptions := [] }

def demoOneOption : Itinerary :=
  { station := "Mount Waverley", trainArrival := 0,
    bus := { route := "733", departure := 600000, travelTime := 17 },
    arrivalAtMonash := 1620000, totalMinutes := 27 }

def demoOneResult : RecommendationResult :=
  { timestamp := 0,
    nextTrain := { atMountWaverley := 0, atSyndal := 180000,
                   atGlenWaverley := 360000 },
    recommendation := some demoOneOption,
    allOptions := [demoOneOption] }

def demoTieOptionMW : Itinerary :=
  { station := "Mount Waverley", trainArrival := 0,
    bus := { route := "733", departure := 180000, travelTime := 17 },
    arrivalAtMonash := 1200000, totalMinutes := 20 }

def demoTieOptionSyndal : Itinerary :=
  { station := "Syndal", trainArrival := 180000,
    bus := { route := "703", departure := 420000, travelTime := 13 },
    arrivalAtMonash := 1200000, totalMinutes := 20 }

def demoTieResult : RecommendationResult :=
  { timestamp := 0,
    nextTrain := { atMountWaverley := 0, atSyndal := 180000,
                   atGlenWaverley := 360000 },
    recommendation := some demoTieOptionMW,
    allOptions := [demoTieOptionMW, demoTieOptionSyndal] }

/-! ## Emptied feeds and the itineraries that depend on them -/

/-- Replace a feed's departures by the empty list when the flag is set (an
"empty feed"); the payload is otherwise untouched. -/
def blankFeed (e : Bool) (p : Payload) : Payload :=
  if e then { departures := some [], routes := p.routes } else p

/-- Whether an itinerary survives when the flagged feeds are emptied: each of
the four feeds feeds exactly the station/route pairs identified here
(feed 1: Mount Waverley 733, feed 2: Syndal 703, feed 3: Syndal 737,
feed 4: both Glen Waverley pairs). -/
def keepOption (e1 e2 e3 e4 : Bool) (o : Itinerary) : Bool :=
  (!(e1 && o.station == "Mount Waverley")) &&
  (!(e2 && o.station == "Syndal" && o.bus.route == "703")) &&
  (!(e3 && o.station == "Syndal" && o.bus.route == "737")) &&
  (!(e4 && o.station == "Glen Waverley"))

/-! ## Lemmas about the stable sort -/

section SortByKey

variable {α : Type _}

theorem sortByKey_nil (key : α → Int) : sortByKey key [] = [] := rfl

theorem sortByKey_cons (key : α → Int) (x : α) (l : List α) :
    sortByKey key (x :: l) = insertByKey key x (sortByKey key l) := rfl

theorem mem_insertByKey {key : α → Int} {x a : α} {l : List α} :
    a ∈ insertByKey key x l ↔ a = x ∨ a ∈ l := by
  induction l with
  | nil => simp [insertByKey]
  | cons y ys ih =>
    simp only [insertByKey]
    split
    · simp only [List.mem_cons, ih]
      tauto
    · simp only [List.mem_cons]

theorem mem_sortByKey {key : α → Int} {a : α} {l : List α} :
    a ∈ sortByKey key l ↔ a ∈ l := by
  induction l with
  | nil => simp [sortByKey]
  | cons x xs ih =>
    rw [sortByKey_cons, mem_insertByKey, ih, List.mem_cons]

theorem insertByKey_ne_nil (key : α → Int) (x : α) (l : List α) :
    insertByKey key x l ≠ [] := by
  cases l with
  | nil => simp [insertByKey]
  | cons y ys =>
    simp only [insertByKey]
    split <;> simp

theorem sortByKey_eq_nil_iff {key : α → Int} {l : List α} :
    sortByKey key l = [] ↔ l = [] := by
  cases l with
  | nil => simp [sortByKey]
  | cons x xs =>
    rw [sortByKey_cons]
    simpa using insertByKey_ne_nil key x (sortByKey key xs)

/-- The sort output is ascending in the key. -/
theorem pairwise_insertByKey {key : α → Int} {x : α} {l : List α}
    (h : l.Pairwise (fun a b => key a ≤ key b)) :
    (insertByKey key x l).Pairwise (fun a b => key a ≤ key b) := by
  induction l with
  | nil => simp [insertByKey]
  | cons y ys ih =>
    rw [List.pairwise_cons] at h
    obtain ⟨hy, hys⟩ := h
    simp only [insertByKey]
    split
    · rename_i hlt
      rw [List.pairwise_cons]
      refine ⟨?_, ih hys⟩
      intro b hb
      rw [mem_insertByKey] at hb
      rcases hb with rfl | hb
      · exact le_of_lt hlt
      · exact hy b hb
    · rename_i hnlt
      rw [List.pairwise_cons]
      constructor
      · intro b hb
        rcases List.mem_cons.mp hb with rfl | hb
        · exact le_of_not_lt hnlt
        · exact le_trans (le_of_not_lt hnlt) (hy b hb)
      · exact List.pairwise_cons.mpr ⟨hy, hys⟩

theorem pairwise_sortByKey (key : α → Int) (l : List α) :
    (sortByKey key l).Pairwise (fun a b => key a ≤ key b) := by
  induction l with
  | nil => simp [sortByKey]
  | cons x xs ih =>
    rw [sortByKey_cons]
    exact pairwise_insertByKey ih

/-- The head of the sorted list has a minimal key among the list's members. -/
theorem head_sortByKey_min {key : α → Int} {l : List α} {x : α} {xs : List α}
    (h : sortByKey key l = x :: xs) :
    ∀ y ∈ l, key x ≤ key y := by
  intro y hy
  have hmem : y ∈ sortByKey key l := mem_sortByKey.mpr hy
  rw [h] at hmem
  rcases List.mem_cons.mp hmem with rfl | hmem
  · exact le_refl _
  · have hp := pairwise_sortByKey key l
    rw [h, List.pairwise_cons] at hp
    exact hp.1 y hmem

/-- Filtering commutes with insertion into an ascending list. -/
theorem filter_insertByKey {key : α → Int} {p : α → Bool} {x : α} {l : List α}
    (h : l.Pairwise (fun a b => key a ≤ key b)) :
    (insertByKey key x l).filter p =
      if p x then insertByKey key x (l.filter p) else l.filter p := by
  induction l with
  | nil =>
    by_cases hpx : p x = true <;>
      simp [insertByKey, List.filter_cons, hpx]
  | cons y ys ih =>
    rw [List.pairwise_cons] at h
    obtain ⟨hy, hys⟩ := h
    by_cases hlt : key y < key x
    · have h1 : insertByKey key x (y :: ys) = y :: insertByKey key x ys := by
        simp [insertByKey, hlt]
      rw [h1, List.filter_cons, List.filter_cons]
      by_cases hpy : p y = true
      · rw [if_pos hpy, if_pos hpy, ih hys]
        by_cases hpx : p x = true
        · rw [if_pos hpx, if_pos hpx]
          have h2 : insertByKey key x (y :: List.filter p ys) =
              y :: insertByKey key x (List.filter p ys) := by
            simp [insertByKey, hlt]
          rw [h2]
        · rw [if_neg hpx, if_neg hpx]
      · rw [if_neg hpy, if_neg hpy, ih hys]
    · have h1 : insertByKey key x (y :: ys) = x :: y :: ys := by
        simp [insertByKey, hlt]
      rw [h1, List.filter_cons]
      by_cases hpx : p x = true
      · rw [if_pos hpx, if_pos hpx]
        have hall : ∀ z ∈ (y :: ys).filter p, ¬ key z < key x := by
          intro z hz
          have hz' := List.mem_of_mem_filter hz
          rcases List.mem_cons.mp hz' with rfl | hmem
          · exact hlt
          · exact fun hc => hlt (lt_of_le_of_lt (hy z hmem) hc)
        cases hm : (y :: ys).filter p with
        | nil => simp [insertByKey]
        | cons z zs =>
          have hz := hall z (by rw [hm]; exact List.mem_cons_self z zs)
          simp [insertByKey, hz]
      · rw [if_neg hpx, if_neg hpx]

/-- Stable sort commutes with filtering. -/
theorem filter_sortByKey (key : α → Int) (p : α → Bool) (l : List α) :
    (sortByKey key l).filter p = sortByKey key (l.filter p) := by
  induction l with
  | nil => simp [sortByKey]
  | cons x xs ih =>
    rw [sortByKey_cons, filter_insertByKey (pairwise_sortByKey key xs), ih,
      List.filter_cons]
    cases hpx : p x with
    | true => simp [sortByKey_cons]
    | false => simp

/-- Sorting a list whose keys are all equal is the identity: this is the
stability of the sort, ties keep their original relative order. -/
theorem sortByKey_of_const_key {key : α → Int} {k : Int} {l : List α}
    (h : ∀ x ∈ l, key x = k) : sortByKey key l = l := by
  induction l with
  | nil => rfl
  | cons x xs ih =>
    rw [sortByKey_cons, ih (fun y hy => h y (List.mem_cons_of_mem x hy))]
    cases xs with
    | nil => rfl
    | cons y ys =>
      have hx : key x = k := h x (List.mem_cons_self _ _)
      have hy : key y = k := h y (List.mem_cons_of_mem x (List.mem_cons_self _ _))
      simp [insertByKey, hx, hy]

/-- Ties in the key keep their construction order: filtering the sorted list
down to one key value yields the same subsequence as filtering the input. -/
theorem filter_key_sortByKey (key : α → Int) (k : Int) (l : List α) :
    (sortByKey key l).filter (fun x => key x == k) =
      l.filter (fun x => key x == k) := by
  rw [filter_sortByKey]
  refine sortByKey_of_const_key (k := k) (fun x hx => ?_)
  have := List.of_mem_filter hx
  simpa using this

end SortByKey

/-! ## Basic lemmas about the time model -/

theorem timeGe_true_iff {a b : Option Int} :
    timeGe a b = true ↔ ∃ x y, a = some x ∧ b = some y ∧ y ≤ x := by
  cases a <;> cases b <;> simp [timeGe]

theorem timeGe_none_right (a : Option Int) : timeGe a none = false := by
  cases a <;> rfl

theorem addMinutes_some (t m : Int) :
    addMinutes (some t) m = some (t + m * 60000) := rfl

theorem addMinutes_none (m : Int) : addMinutes none m = none := rfl

theorem toISO_ok_iff {o : Option Int} {t : Int} : toISO o = .ok t ↔ o = some t := by
  cases o <;> simp [toISO]

/-! ## Lemmas about the Transfer Matcher -/

theorem findNextBus_none_iff {l : List EnrichedDep} {ta : Option Int}
    {rs : List String} {m : Int} :
    findNextBus l ta rs m = none ↔
      ∀ e ∈ l.map normalizeBus,
        timeGe e.departureTime (addMinutes ta m) = false := by
  unfold findNextBus
  rw [List.head?_eq_none_iff, sortByKey_eq_nil_iff, List.filter_eq_nil_iff]
  simp

/-- Anything the matcher returns was a feasible normalized event of the input,
and its resolved time is minimal among the feasible events. -/
theorem findNextBus_some_spec {l : List EnrichedDep} {ta : Option Int}
    {rs : List String} {m : Int} {e : NormalizedEvent}
    (h : findNextBus l ta rs m = some e) :
    e ∈ l.map normalizeBus ∧
    timeGe e.departureTime (addMinutes ta m) = true ∧
    ∀ e' ∈ l.map normalizeBus,
      timeGe e'.departureTime (addMinutes ta m) = true →
      keyOf e.departureTime ≤ keyOf e'.departureTime := by
  unfold findNextBus at h
  cases hs : sortByKey (fun e => keyOf e.departureTime)
      ((l.map normalizeBus).filter
        (fun e => timeGe e.departureTime (addMinutes ta m))) with
  | nil => rw [hs] at h; simp at h
  | cons x xs =>
    rw [hs] at h
    simp only [List.head?_cons, Option.some.injEq] at h
    rw [← h]
    have hsorted : x ∈ sortByKey (fun e => keyOf e.departureTime)
        ((l.map normalizeBus).filter
          (fun e => timeGe e.departureTime (addMinutes ta m))) := by
      rw [hs]
      exact List.mem_cons_self _ _
    have hmem : x ∈ (l.map normalizeBus).filter
        (fun e => timeGe e.departureTime (addMinutes ta m)) :=
      mem_sortByKey.mp hsorted
    have hfeas : timeGe x.departureTime (addMinutes ta m) = true := by
      simpa using List.of_mem_filter hmem
    refine ⟨List.mem_of_mem_filter hmem, hfeas, ?_⟩
    intro e' hmem' hfeas'
    exact head_sortByKey_min hs e' (List.mem_filter.mpr ⟨hmem', hfeas'⟩)

/-- The matcher never returns an event with an unparseable resolved time, and
when the station arrival is a valid instant the returned time respects the
transfer buffer. -/
theorem findNextBus_some_valid {l : List EnrichedDep} {ta : Option Int}
    {rs : List String} {m : Int} {e : NormalizedEvent}
    (h : findNextBus l ta rs m = some e) :
    ∃ t d, ta = some t ∧ e.departureTime = some d ∧ t + m * 60000 ≤ d := by
  obtain ⟨-, hfeas, -⟩ := findNextBus_some_spec h
  rw [timeGe_true_iff] at hfeas
  obtain ⟨d, y, hd, hy, hle⟩ := hfeas
  cases ta with
  | none => rw [addMinutes_none] at hy; cases hy
  | some t =>
    rw [addMinutes_some] at hy
    cases hy
    exact ⟨t, d, rfl, hd, hle⟩

theorem findNextBus_nil (ta : Option Int) (rs : List String) (m : Int) :
    findNextBus [] ta rs m = none := rfl

/-! ## Lemmas about the Itinerary Assembler -/

/-- A successful push records exactly the matched bus: its shape, the
(station, route) signature, and the transfer-buffer bound. -/
theorem buildOptionAt_ok_shape {now : Int} {st : String} {ta : Option Int}
    {l : List EnrichedDep} {rn : String} {tt : Int} {os : List Itinerary}
    (h : buildOptionAt now st ta l rn tt = .ok os) :
    (os = [] ∧ findNextBus l ta [rn] MIN_TRANSFER_TIME = none) ∨
    ∃ t d bus, ta = some t ∧
      findNextBus l ta [rn] MIN_TRANSFER_TIME = some bus ∧
      bus.departureTime = some d ∧
      t + MIN_TRANSFER_TIME * 60000 ≤ d ∧
      os = [mkItinerary now st t rn tt d] := by
  unfold buildOptionAt at h
  cases hf : findNextBus l ta [rn] MIN_TRANSFER_TIME with
  | none =>
    rw [hf] at h
    simp only [Except.ok.injEq] at h
    exact Or.inl ⟨h.symm, rfl⟩
  | some bus =>
    rw [hf] at h
    obtain ⟨t, d, hta, hd, hle⟩ := findNextBus_some_valid hf
    rw [hta] at h
    simp only [toISO] at h
    rw [hd] at h
    simp only [toISO, Except.ok.injEq] at h
    exact Or.inr ⟨t, d, bus, hta, rfl, hd, hle, h.symm⟩

/-- The push never throws: when a bus matched, both `toISOString()` calls are
on valid dates. -/
theorem buildOptionAt_isOk (now : Int) (st : String) (ta : Option Int)
    (l : List EnrichedDep) (rn : String) (tt : Int) :
    ∃ os, buildOptionAt now st ta l rn tt = .ok os := by
  unfold buildOptionAt
  cases hf : findNextBus l ta [rn] MIN_TRANSFER_TIME with
  | none => exact ⟨[], rfl⟩
  | some bus =>
    obtain ⟨t, d, hta, hd, hle⟩ := findNextBus_some_valid hf
    rw [hta]
    simp only [toISO]
    rw [hd]
    simp only [toISO]
    exact ⟨_, rfl⟩

/-- Every itinerary a push produces carries its pair's station name and route
number, and satisfies the transfer-buffer invariant relative to the instants
it itself records. -/
theorem buildOptionAt_mem {now : Int} {st : String} {ta : Option Int}
    {l : List EnrichedDep} {rn : String} {tt : Int} {os : List Itinerary}
    (h : buildOptionAt now st ta l rn tt = .ok os) :
    ∀ o ∈ os, o.station = st ∧ o.bus.route = rn ∧ o.bus.travelTime = tt ∧
      ta = some o.trainArrival ∧
      o.trainArrival + MIN_TRANSFER_TIME * 60000 ≤ o.bus.departure ∧
      o.arrivalAtMonash = o.bus.departure + tt * 60000 := by
  intro o ho
  rcases buildOptionAt_ok_shape h with ⟨rfl, -⟩ | ⟨t, d, bus, hta, -, -, hle, rfl⟩
  · cases ho
  · rw [List.mem_singleton] at ho
    subst ho
    exact ⟨rfl, rfl, rfl, hta, hle, rfl⟩

theorem buildOptionAt_nil (now : Int) (st : String) (ta : Option Int)
    (rn : String) (tt : Int) :
    buildOptionAt now st ta [] rn tt = .ok [] := rfl

/-! ## Lemmas about the five pushes together -/

theorem buildOptions_ok_shape {now : Int} {ta : TrainArrivals}
    {mt s3 s7 gw : List EnrichedDep} {os : List Itinerary}
    (h : buildOptions now ta mt s3 s7 gw = .ok os) :
    ∃ o1 o2 o3 o4 o5,
      buildOptionAt now "Mount Waverley" ta.mountWaverley mt "733"
        (BUS_TRAVEL_TIMES 733) = .ok o1 ∧
      buildOptionAt now "Syndal" ta.syndal s3 "703"
        (BUS_TRAVEL_TIMES 703) = .ok o2 ∧
      buildOptionAt now "Syndal" ta.syndal s7 "737"
        (BUS_TRAVEL_TIMES 737) = .ok o3 ∧
      buildOptionAt now "Glen Waverley" ta.glenWaverley
        (gw.filter (fun b => b.routeNumber == "742")) "742"
        (BUS_TRAVEL_TIMES 742) = .ok o4 ∧
      buildOptionAt now "Glen Waverley" ta.glenWaverley
        (gw.filter (fun b => b.routeNumber == "737")) "737"
        (BUS_TRAVEL_TIMES 737) = .ok o5 ∧
      os = o1 ++ o2 ++ o3 ++ o4 ++ o5 := by
  unfold buildOptions at h
  obtain ⟨o1, h1⟩ := buildOptionAt_isOk now "Mount Waverley" ta.mountWaverley
    mt "733" (BUS_TRAVEL_TIMES 733)
  obtain ⟨o2, h2⟩ := buildOptionAt_isOk now "Syndal" ta.syndal
    s3 "703" (BUS_TRAVEL_TIMES 703)
  obtain ⟨o3, h3⟩ := buildOptionAt_isOk now "Syndal" ta.syndal
    s7 "737" (BUS_TRAVEL_TIMES 737)
  obtain ⟨o4, h4⟩ := buildOptionAt_isOk now "Glen Waverley" ta.glenWaverley
    (gw.filter (fun b => b.routeNumber == "742")) "742" (BUS_TRAVEL_TIMES 742)
  obtain ⟨o5, h5⟩ := buildOptionAt_isOk now "Glen Waverley" ta.glenWaverley
    (gw.filter (fun b => b.routeNumber == "737")) "737" (BUS_TRAVEL_TIMES 737)
  rw [h1, h2, h3, h4, h5] at h
  simp only [Except.ok.injEq] at h
  exact ⟨o1, o2, o3, o4, o5, h1, h2, h3, h4, h5, h.symm⟩

theorem buildOptions_isOk (now : Int) (ta : TrainArrivals)
    (mt s3 s7 gw : List EnrichedDep) :
    ∃ os, buildOptions now ta mt s3 s7 gw = .ok os := by
  unfold buildOptions
  obtain ⟨o1, h1⟩ := buildOptionAt_isOk now "Mount Waverley" ta.mountWaverley
    mt "733" (BUS_TRAVEL_TIMES 733)
  obtain ⟨o2, h2⟩ := buildOptionAt_isOk now "Syndal" ta.syndal
    s3 "703" (BUS_TRAVEL_TIMES 703)
  obtain ⟨o3, h3⟩ := buildOptionAt_isOk now "Syndal" ta.syndal
    s7 "737" (BUS_TRAVEL_TIMES 737)
  obtain ⟨o4, h4⟩ := buildOptionAt_isOk now "Glen Waverley" ta.glenWaverley
    (gw.filter (fun b => b.routeNumber == "742")) "742" (BUS_TRAVEL_TIMES 742)
  obtain ⟨o5, h5⟩ := buildOptionAt_isOk now "Glen Waverley" ta.glenWaverley
    (gw.filter (fun b => b.routeNumber == "737")) "737" (BUS_TRAVEL_TIMES 737)
  rw [h1, h2, h3, h4, h5]
  exact ⟨_, rfl⟩

/-! ## Inversion of the successful handler run -/

theorem computeRecommendation_ok_result {now : Int} {tP p1 p2 p3 p4 : Payload}
    {r : RecommendationResult}
    (h : computeRecommendation now tP p1 p2 p3 p4 = .ok (.result r)) :
    ∃ b1 b2 b3 b4 deps nt t opts,
      getBusDeparturesFilter p1 ["733"] = .ok b1 ∧
      getBusDeparturesFilter p2 ["703"] = .ok b2 ∧
      getBusDeparturesFilter p3 ["737"] = .ok b3 ∧
      getBusDeparturesFilter p4 ["742", "737"] = .ok b4 ∧
      tP.departures = some deps ∧
      (outboundOf deps).head? = some nt ∧
      nt.arrivalTime = some t ∧
      buildOptions now (trainArrivalsOf (some t)) (enrichList b1 "733")
        (enrichList b2 "703") (enrichList b3 "737")
        (enrichList b4 "unknown") = .ok opts ∧
      r = { timestamp := now,
            nextTrain := { atMountWaverley := t, atSyndal := t + 3 * 60000,
                           atGlenWaverley := t + 6 * 60000 },
            recommendation := (sortByKey itKey opts).head?,
            allOptions := sortByKey itKey opts } := by
  unfold computeRecommendation at h
  cases hb1 : getBusDeparturesFilter p1 ["733"] with
  | error e => rw [hb1] at h; simp at h
  | ok b1 =>
  rw [hb1] at h
  cases hb2 : getBusDeparturesFilter p2 ["703"] with
  | error e => rw [hb2] at h; simp at h
  | ok b2 =>
  rw [hb2] at h
  cases hb3 : getBusDeparturesFilter p3 ["737"] with
  | error e => rw [hb3] at h; simp at h
  | ok b3 =>
  rw [hb3] at h
  cases hb4 : getBusDeparturesFilter p4 ["742", "737"] with
  | error e => rw [hb4] at h; simp at h
  | ok b4 =>
  rw [hb4] at h
  try simp only [] at h
  cases hdeps : tP.departures with
  | none => rw [hdeps] at h; simp at h
  | some deps =>
  rw [hdeps] at h
  try simp only [] at h
  cases hnt : (outboundOf deps).head? with
  | none => rw [hnt] at h; simp at h
  | some nt =>
  rw [hnt] at h
  try simp only [] at h
  cases hopts : buildOptions now (trainArrivalsOf nt.arrivalTime)
      (enrichList b1 "733") (enrichList b2 "703") (enrichList b3 "737")
      (enrichList b4 "unknown") with
  | error e => rw [hopts] at h; simp at h
  | ok opts =>
  rw [hopts] at h
  try simp only [] at h
  cases ht : nt.arrivalTime with
  | none => rw [ht] at h; simp [trainArrivalsOf, toISO] at h
  | some t =>
  rw [ht] at h
  rw [ht] at hopts
  simp only [trainArrivalsOf, addMinutes_some, toISO, Except.ok.injEq,
    ApiResponse.result.injEq] at h
  refine ⟨b1, b2, b3, b4, deps, nt, t, opts,
    rfl, rfl, rfl, rfl, rfl, hnt, ht, hopts, ?_⟩
  rw [← h]
  have h3 : TRAIN_TRAVEL_FROM_MT_WAVERLEY.syndal = 3 := rfl
  have h6 : TRAIN_TRAVEL_FROM_MT_WAVERLEY.glenWaverley = 6 := rfl
  simp [trainArrivalsOf, addMinutes_some, h3, h6]

/-! ## Forward evaluation lemmas -/

theorem getBusDeparturesFilter_some {p : Payload} {l : List RawDeparture}
    (rs : List String) (h : p.departures = some l) :
    getBusDeparturesFilter p rs = .ok
      { departures := l.filter (fun dep =>
          match lookupRoute p.routes dep.route_id with
          | none => false
          | some route => rs.any (fun num =>
              route.route_number == some num ||
              route.route_short_name == some num)),
        routes := p.routes } := by
  unfold getBusDeparturesFilter
  rw [h]

theorem buildOptions_eval {now : Int} {ta : TrainArrivals}
    {mt s3 s7 gw : List EnrichedDep} {o1 o2 o3 o4 o5 : List Itinerary}
    (h1 : buildOptionAt now "Mount Waverley" ta.mountWaverley mt "733"
        (BUS_TRAVEL_TIMES 733) = .ok o1)
    (h2 : buildOptionAt now "Syndal" ta.syndal s3 "703"
        (BUS_TRAVEL_TIMES 703) = .ok o2)
    (h3 : buildOptionAt now "Syndal" ta.syndal s7 "737"
        (BUS_TRAVEL_TIMES 737) = .ok o3)
    (h4 : buildOptionAt now "Glen Waverley" ta.glenWaverley
        (gw.filter (fun b => b.routeNumber == "742")) "742"
        (BUS_TRAVEL_TIMES 742) = .ok o4)
    (h5 : buildOptionAt now "Glen Waverley" ta.glenWaverley
        (gw.filter (fun b => b.routeNumber == "737")) "737"
        (BUS_TRAVEL_TIMES 737) = .ok o5) :
    buildOptions now ta mt s3 s7 gw = .ok (o1 ++ o2 ++ o3 ++ o4 ++ o5) := by
  unfold buildOptions
  rw [h1, h2, h3, h4, h5]

theorem computeRecommendation_eval {now t : Int} {tP p1 p2 p3 p4 : Payload}
    {b1 b2 b3 b4 : BusData} {deps : List RawDeparture} {nt : TrainEvent}
    {opts : List Itinerary}
    (h1 : getBusDeparturesFilter p1 ["733"] = .ok b1)
    (h2 : getBusDeparturesFilter p2 ["703"] = .ok b2)
    (h3 : getBusDeparturesFilter p3 ["737"] = .ok b3)
    (h4 : getBusDeparturesFilter p4 ["742", "737"] = .ok b4)
    (hd : tP.departures = some deps)
    (hnt : (outboundOf deps).head? = some nt)
    (ht : nt.arrivalTime = some t)
    (hopts : buildOptions now (trainArrivalsOf (some t)) (enrichList b1 "733")
        (enrichList b2 "703") (enrichList b3 "737")
        (enrichList b4 "unknown") = .ok opts) :
    computeRecommendation now tP p1 p2 p3 p4 = .ok (.result
      { timestamp := now,
        nextTrain := { atMountWaverley := t, atSyndal := t + 3 * 60000,
                       atGlenWaverley := t + 6 * 60000 },
        recommendation := (sortByKey itKey opts).head?,
        allOptions := sortByKey itKey opts }) := by
  unfold computeRecommendation
  rw [h1]
  try simp only []
  rw [h2]
  try simp only []
  rw [h3]
  try simp only []
  rw [h4]
  try simp only []
  rw [hd]
  try simp only []
  rw [hnt]
  try simp only []
  rw [ht, hopts]
  try simp only []
  have hmw : toISO (trainArrivalsOf (some t)).mountWaverley = .ok t := rfl
  have hsy : toISO (trainArrivalsOf (some t)).syndal = .ok (t + 3 * 60000) := rfl
  have hgw : toISO (trainArrivalsOf (some t)).glenWaverley = .ok (t + 6 * 60000) := rfl
  rw [hmw]
  try simp only []
  rw [hsy]
  try simp only []
  rw [hgw]

theorem outboundOf_nil_of_no_dir6 {deps : List RawDeparture}
    (h : deps.filter (fun d => d.direction_id == some 6) = []) :
    outboundOf deps = [] := by
  unfold outboundOf
  rw [h]
  rfl

theorem computeRecommendation_noTrains {now : Int} {tP p1 p2 p3 p4 : Payload}
    {l1 l2 l3 l4 deps : List RawDeparture}
    (h1 : p1.departures = some l1) (h2 : p2.departures = some l2)
    (h3 : p3.departures = some l3) (h4 : p4.departures = some l4)
    (hd : tP.departures = some deps)
    (hout : deps.filter (fun d => d.direction_id == some 6) = []) :
    computeRecommendation now tP p1 p2 p3 p4 = .ok (.noTrains now) := by
  unfold computeRecommendation
  rw [getBusDeparturesFilter_some ["733"] h1]
  try simp only []
  rw [getBusDeparturesFilter_some ["703"] h2]
  try simp only []
  rw [getBusDeparturesFilter_some ["737"] h3]
  try simp only []
  rw [getBusDeparturesFilter_some ["742", "737"] h4]
  try simp only []
  rw [hd]
  try simp only []
  rw [outboundOf_nil_of_no_dir6 hout]
  rfl

/-! ## Claim theorems -/

/-- C1: Transfer Matcher correctness.  For every projected station arrival
instant `t`, buffer `m` minutes and route-restricted event list,
`findNextBus` returns an event whose resolved departure instant is minimal
among those at or after `t + m` minutes — in particular never one strictly
before that bound — and returns no result exactly when no event qualifies. -/
theorem transfer_matcher_correct (l : List EnrichedDep) (t m : Int)
    (rs : List String) :
    (∀ e, findNextBus l (some t) rs m = some e →
      ∃ d, e.departureTime = some d ∧ t + m * 60000 ≤ d ∧
        e ∈ l.map normalizeBus ∧
        ∀ e' ∈ l.map normalizeBus, ∀ d', e'.departureTime = some d' →
          t + m * 60000 ≤ d' → d ≤ d') ∧
    (findNextBus l (some t) rs m = none ↔
      ∀ e ∈ l.map normalizeBus, ∀ d, e.departureTime = some d →
        d < t + m * 60000) := by
  constructor
  · intro e he
    obtain ⟨t', d, ht', hd, hled⟩ := findNextBus_some_valid he
    obtain ⟨hmem, hfeas, hmin⟩ := findNextBus_some_spec he
    have htt : t = t' := by injection ht'
    subst htt
    refine ⟨d, hd, hled, hmem, ?_⟩
    intro e' hmem' d' hd' hled'
    have hfeas' : timeGe e'.departureTime (addMinutes (some t) m) = true := by
      rw [timeGe_true_iff]
      exact ⟨d', t + m * 60000, hd', by rw [addMinutes_some], hled'⟩
    have hk := hmin e' hmem' hfeas'
    rw [hd, hd'] at hk
    simpa [keyOf] using hk
  · rw [findNextBus_none_iff]
    constructor
    · intro hall e hmem d hd
      have hf := hall e hmem
      rw [hd, addMinutes_some] at hf
      simp only [timeGe, ge_iff_le, decide_eq_false_iff_not, not_le] at hf
      exact hf
    · intro hall e hmem
      cases hde : e.departureTime with
      | none => rw [addMinutes_some]; rfl
      | some d =>
        have hlt := hall e hmem d hde
        rw [addMinutes_some]
        simp only [timeGe, ge_iff_le, decide_eq_false_iff_not, not_le]
        exact hlt

/-- Witness for C1 at the spec scenario: buffer 3 minutes, station arrival at
instant 0 (10:00), buses at one, four and ten minutes later; the matched bus
is the 10:04 one and it is minimal among the feasible departures. -/
theorem transfer_matcher_correct_witness :
    ∃ d, (normalizeBus (demoBus 240000)).departureTime = some d ∧
      0 + 3 * 60000 ≤ d ∧
      normalizeBus (demoBus 240000) ∈ demoBusList.map normalizeBus ∧
      ∀ e' ∈ demoBusList.map normalizeBus, ∀ d', e'.departureTime = some d' →
        0 + 3 * 60000 ≤ d' → d ≤ d' :=
  (transfer_matcher_correct demoBusList 0 3 ["733"]).1
    (normalizeBus (demoBus 240000)) (by decide)

/-- C6: Normalizer resolution rule.  A record with both a scheduled and an
estimated instant resolves to the estimated one; a record with only a
scheduled instant resolves to the scheduled one. -/
theorem normalizer_resolution (rid : Nat) (dir : Option Int) (s e : Int) :
    resolveTime { route_id := rid, direction_id := dir,
                  scheduled_departure_utc := .valid s,
                  estimated_departure_utc := .valid e } = some e ∧
    resolveTime { route_id := rid, direction_id := dir,
                  scheduled_departure_utc := .valid s,
                  estimated_departure_utc := .absent } = some s :=
  ⟨rfl, rfl⟩

/-- C8: determinism.  For a fixed `now` and identical feed payloads the
computation returns the same `RecommendationResult`; purity is captured by
the embedding itself, whose only inputs are `now` (every clock read of the
handler under the fixed-`now` contract) and the five payloads. -/
theorem computeRecommendation_deterministic (now : Int)
    (tP p1 p2 p3 p4 : Payload) :
    computeRecommendation now tP p1 p2 p3 p4 =
      computeRecommendation now tP p1 p2 p3 p4 := rfl

/-- C7: Station Arrival Projector.  In every successful run the per-station
projected arrivals equal the chosen train's resolved departure instant plus
the station's fixed offset (0, 3 and 6 minutes), and are therefore
non-decreasing in offset order. -/
theorem projector_offsets {now : Int} {tP p1 p2 p3 p4 : Payload}
    {r : RecommendationResult}
    (h : computeRecommendation now tP p1 p2 p3 p4 = .ok (.result r)) :
    ∃ deps nt, tP.departures = some deps ∧
      (outboundOf deps).head? = some nt ∧
      nt.arrivalTime = some r.nextTrain.atMountWaverley ∧
      r.nextTrain.atMountWaverley = r.nextTrain.atMountWaverley +
        TRAIN_TRAVEL_FROM_MT_WAVERLEY.mountWaverley * 60000 ∧
      r.nextTrain.atSyndal = r.nextTrain.atMountWaverley +
        TRAIN_TRAVEL_FROM_MT_WAVERLEY.syndal * 60000 ∧
      r.nextTrain.atGlenWaverley = r.nextTrain.atMountWaverley +
        TRAIN_TRAVEL_FROM_MT_WAVERLEY.glenWaverley * 60000 ∧
      r.nextTrain.atMountWaverley ≤ r.nextTrain.atSyndal ∧
      r.nextTrain.atSyndal ≤ r.nextTrain.atGlenWaverley := by
  obtain ⟨b1, b2, b3, b4, deps, nt, t, opts, -, -, -, -, hd, hnt, ht, -, hr⟩ :=
    computeRecommendation_ok_result h
  subst hr
  have e0 : TRAIN_TRAVEL_FROM_MT_WAVERLEY.mountWaverley = 0 := rfl
  have e3 : TRAIN_TRAVEL_FROM_MT_WAVERLEY.syndal = 3 := rfl
  have e6 : TRAIN_TRAVEL_FROM_MT_WAVERLEY.glenWaverley = 6 := rfl
  refine ⟨deps, nt, hd, hnt, ht, ?_, ?_, ?_, ?_, ?_⟩
  · show t = t + TRAIN_TRAVEL_FROM_MT_WAVERLEY.mountWaverley * 60000
    rw [e0]
    omega
  · show t + 3 * 60000 = t + TRAIN_TRAVEL_FROM_MT_WAVERLEY.syndal * 60000
    rw [e3]
  · show t + 6 * 60000 = t + TRAIN_TRAVEL_FROM_MT_WAVERLEY.glenWaverley * 60000
    rw [e6]
  · show t ≤ t + 3 * 60000
    omega
  · show t + 3 * 60000 ≤ t + 6 * 60000
    omega

/-- Witness for C7: a train resolved at instant 0 projects arrivals 0,
180000 and 360000 ms (0, 3 and 6 minutes). -/
theorem projector_offsets_witness :
    ∃ deps nt, demoTrainP.departures = some deps ∧
      (outboundOf deps).head? = some nt ∧
      nt.arrivalTime = some demoEmptyResult.nextTrain.atMountWaverley ∧
      demoEmptyResult.nextTrain.atMountWaverley =
        demoEmptyResult.nextTrain.atMountWaverley +
        TRAIN_TRAVEL_FROM_MT_WAVERLEY.mountWaverley * 60000 ∧
      demoEmptyResult.nextTrain.atSyndal =
        demoEmptyResult.nextTrain.atMountWaverley +
        TRAIN_TRAVEL_FROM_MT_WAVERLEY.syndal * 60000 ∧
      demoEmptyResult.nextTrain.atGlenWaverley =
        demoEmptyResult.nextTrain.atMountWaverley +
        TRAIN_TRAVEL_FROM_MT_WAVERLEY.glenWaverley * 60000 ∧
      demoEmptyResult.nextTrain.atMountWaverley ≤
        demoEmptyResult.nextTrain.atSyndal ∧
      demoEmptyResult.nextTrain.atSyndal ≤
        demoEmptyResult.nextTrain.atGlenWaverley :=
  @projector_offsets 0 demoTrainP demoEmptyBusP demoEmptyBusP demoEmptyBusP
    demoEmptyBusP demoEmptyResult rfl

/-- C4: Itinerary feasibility invariant.  Every itinerary in a successful
result — in `allOptions`, hence also the recommendation — records a bus
departure at or after its station arrival plus the 3-minute transfer
buffer. -/
theorem itinerary_feasibility {now : Int} {tP p1 p2 p3 p4 : Payload}
    {r : RecommendationResult}
    (h : computeRecommendation now tP p1 p2 p3 p4 = .ok (.result r)) :
    (∀ o ∈ r.allOptions,
      o.trainArrival + MIN_TRANSFER_TIME * 60000 ≤ o.bus.departure) ∧
    (∀ o, r.recommendation = some o →
      o.trainArrival + MIN_TRANSFER_TIME * 60000 ≤ o.bus.departure) := by
  obtain ⟨b1, b2, b3, b4, deps, nt, t, opts, -, -, -, -, -, -, -, hopts, hr⟩ :=
    computeRecommendation_ok_result h
  subst hr
  have hall : ∀ o ∈ opts,
      o.trainArrival + MIN_TRANSFER_TIME * 60000 ≤ o.bus.departure := by
    obtain ⟨o1, o2, o3, o4, o5, g1, g2, g3, g4, g5, rfl⟩ :=
      buildOptions_ok_shape hopts
    intro o ho
    rcases List.mem_append.mp ho with ho4 | hoo5
    · rcases List.mem_append.mp ho4 with ho3 | hoo4
      · rcases List.mem_append.mp ho3 with ho2 | hoo3
        · rcases List.mem_append.mp ho2 with hoo1 | hoo2
          · exact (buildOptionAt_mem g1 o hoo1).2.2.2.2.1
          · exact (buildOptionAt_mem g2 o hoo2).2.2.2.2.1
        · exact (buildOptionAt_mem g3 o hoo3).2.2.2.2.1
      · exact (buildOptionAt_mem g4 o hoo4).2.2.2.2.1
    · exact (buildOptionAt_mem g5 o hoo5).2.2.2.2.1
  constructor
  · intro o ho
    exact hall o (mem_sortByKey.mp ho)
  · intro o hrec
    have hrec' : (sortByKey itKey opts).head? = some o := hrec
    have hmem : o ∈ sortByKey itKey opts := by
      cases hs : sortByKey itKey opts with
      | nil => rw [hs] at hrec'; cases hrec'
      | cons x xs =>
        rw [hs] at hrec'
        simp only [List.head?_cons, Option.some.injEq] at hrec'
        rw [← hrec']
        exact List.mem_cons_self _ _
    exact hall o (mem_sortByKey.mp hmem)

/-- Witness for C4: in the one-bus run the single itinerary departs at
600000 ms from an arrival at 0, far beyond the 180000 ms buffer bound. -/
theorem itinerary_feasibility_witness :
    (∀ o ∈ demoOneResult.allOptions,
      o.trainArrival + MIN_TRANSFER_TIME * 60000 ≤ o.bus.departure) ∧
    (∀ o, demoOneResult.recommendation = some o →
      o.trainArrival + MIN_TRANSFER_TIME * 60000 ≤ o.bus.departure) :=
  @itinerary_feasibility 0 demoTrainP demoBusP733 demoEmptyBusP demoEmptyBusP
    demoEmptyBusP demoOneResult rfl

/-- C2: Itinerary Ranker correctness.  In every successful run `allOptions`
is sorted ascending by destination arrival instant and the recommendation is
its head, hence the minimum; with an empty itinerary set the recommendation
is absent.  Moreover the computation returns a normal result (never an
error) whenever the four bus feeds carry departure lists and an upcoming
train with a valid resolved instant exists — in particular also when the
itinerary set comes out empty. -/
theorem itinerary_ranker_correct :
    (∀ (now : Int) (tP p1 p2 p3 p4 : Payload) (r : RecommendationResult),
      computeRecommendation now tP p1 p2 p3 p4 = .ok (.result r) →
      r.allOptions.Pairwise (fun a b => a.arrivalAtMonash ≤ b.arrivalAtMonash) ∧
      r.recommendation = r.allOptions.head? ∧
      (∀ o, r.recommendation = some o →
        ∀ o' ∈ r.allOptions, o.arrivalAtMonash ≤ o'.arrivalAtMonash) ∧
      (r.allOptions = [] → r.recommendation = none)) ∧
    (∀ (now : Int) (tP p1 p2 p3 p4 : Payload) l1 l2 l3 l4 deps nt t,
      p1.departures = some l1 → p2.departures = some l2 →
      p3.departures = some l3 → p4.departures = some l4 →
      tP.departures = some deps → (outboundOf deps).head? = some nt →
      nt.arrivalTime = some t →
      ∃ r, computeRecommendation now tP p1 p2 p3 p4 = .ok (.result r)) := by
  constructor
  · intro now tP p1 p2 p3 p4 r h
    obtain ⟨b1, b2, b3, b4, deps, nt, t, opts, -, -, -, -, -, -, -, -, hr⟩ :=
      computeRecommendation_ok_result h
    subst hr
    refine ⟨pairwise_sortByKey itKey opts, rfl, ?_, ?_⟩
    · intro o hrec o' ho'
      have hrec' : (sortByKey itKey opts).head? = some o := hrec
      cases hs : sortByKey itKey opts with
      | nil => rw [hs] at hrec'; cases hrec'
      | cons x xs =>
        rw [hs] at hrec'
        simp only [List.head?_cons, Option.some.injEq] at hrec'
        subst hrec'
        exact head_sortByKey_min hs o' (mem_sortByKey.mp ho')
    · intro hnil
      have hnil' : sortByKey itKey opts = [] := hnil
      show (sortByKey itKey opts).head? = none
      rw [hnil']
      rfl
  · intro now tP p1 p2 p3 p4 l1 l2 l3 l4 deps nt t h1 h2 h3 h4 hd hnt ht
    obtain ⟨opts, hopts⟩ := buildOptions_isOk now (trainArrivalsOf (some t))
      (enrichList _ "733") (enrichList _ "703") (enrichList _ "737")
      (enrichList _ "unknown")
    exact ⟨_, computeRecommendation_eval (getBusDeparturesFilter_some _ h1)
      (getBusDeparturesFilter_some _ h2) (getBusDeparturesFilter_some _ h3)
      (getBusDeparturesFilter_some _ h4) hd hnt ht hopts⟩

/-- Witness for C2 at a run with an upcoming train and four present but
empty bus feeds: the itinerary set is empty, the ranked list is empty, the
recommendation is absent, and the run is a normal result, not an error. -/
theorem itinerary_ranker_correct_witness :
    (demoEmptyResult.allOptions.Pairwise
        (fun a b => a.arrivalAtMonash ≤ b.arrivalAtMonash) ∧
      demoEmptyResult.recommendation = demoEmptyResult.allOptions.head? ∧
      (∀ o, demoEmptyResult.recommendation = some o →
        ∀ o' ∈ demoEmptyResult.allOptions,
          o.arrivalAtMonash ≤ o'.arrivalAtMonash) ∧
      (demoEmptyResult.allOptions = [] →
        demoEmptyResult.recommendation = none)) ∧
    (∃ r, computeRecommendation 0 demoTrainP demoEmptyBusP demoEmptyBusP
        demoEmptyBusP demoEmptyBusP = .ok (.result r)) :=
  ⟨itinerary_ranker_correct.1 0 demoTrainP demoEmptyBusP demoEmptyBusP
      demoEmptyBusP demoEmptyBusP demoEmptyResult rfl,
    itinerary_ranker_correct.2 0 demoTrainP demoEmptyBusP demoEmptyBusP
      demoEmptyBusP demoEmptyBusP [] [] [] [] [rawSched 5 (some 6) 0]
      (normalizeTrain (rawSched 5 (some 6) 0)) 0
      rfl rfl rfl rfl rfl (by decide) (by decide)⟩

/-- C10: implicit next-train selection rule.  The event used as the next
train is the minimum-resolved-instant departure among those with
`direction_id = 6` (whenever those all carry parseable instants), and a feed
with no direction-6 departure yields the no-upcoming-trains response, the
projector and matcher never being reached. -/
theorem next_train_selection (deps : List RawDeparture) :
    (∀ nt, (outboundOf deps).head? = some nt →
      (∀ d ∈ deps, d.direction_id = some 6 → (resolveTime d).isSome = true) →
      nt.raw ∈ deps ∧ nt.raw.direction_id = some 6 ∧
      ∃ tn, nt.arrivalTime = some tn ∧
        ∀ d ∈ deps, d.direction_id = some 6 →
          ∀ td, resolveTime d = some td → tn ≤ td) ∧
    (∀ (now : Int) (tP p1 p2 p3 p4 : Payload) (l1 l2 l3 l4 : List RawDeparture),
      p1.departures = some l1 → p2.departures = some l2 →
      p3.departures = some l3 → p4.departures = some l4 →
      tP.departures = some deps →
      deps.filter (fun d => d.direction_id == some 6) = [] →
      computeRecommendation now tP p1 p2 p3 p4 = .ok (.noTrains now)) := by
  constructor
  · intro nt hnt hall
    have hh : (sortByKey (fun e => keyOf e.arrivalTime)
        ((deps.filter (fun d => d.direction_id == some 6)).map
          normalizeTrain)).head? = some nt := hnt
    cases hs : sortByKey (fun e => keyOf e.arrivalTime)
        ((deps.filter (fun d => d.direction_id == some 6)).map
          normalizeTrain) with
    | nil => rw [hs] at hh; cases hh
    | cons x xs =>
      rw [hs] at hh
      simp only [List.head?_cons, Option.some.injEq] at hh
      obtain rfl : nt = x := hh.symm
      have hmem : nt ∈ (deps.filter (fun d => d.direction_id == some 6)).map
          normalizeTrain := mem_sortByKey.mp (by rw [hs]; exact List.mem_cons_self _ _)
      obtain ⟨d0, hd0f, hd0⟩ := List.mem_map.mp hmem
      have hd0mem : d0 ∈ deps := List.mem_of_mem_filter hd0f
      have hd0dir : d0.direction_id = some 6 := by
        have := List.of_mem_filter hd0f
        simpa using this
      have hraw : nt.raw = d0 := by rw [← hd0]; rfl
      refine ⟨hraw ▸ hd0mem, hraw ▸ hd0dir, ?_⟩
      have hres : (resolveTime d0).isSome = true := hall d0 hd0mem hd0dir
      obtain ⟨tn, htn⟩ := Option.isSome_iff_exists.mp hres
      have harr : nt.arrivalTime = some tn := by rw [← hd0]; exact htn
      refine ⟨tn, harr, ?_⟩
      intro d hdmem hdir td htd
      have hdf : d ∈ deps.filter (fun d => d.direction_id == some 6) :=
        List.mem_filter.mpr ⟨hdmem, by simp [hdir]⟩
      have hdm : normalizeTrain d ∈ (deps.filter
          (fun d => d.direction_id == some 6)).map normalizeTrain :=
        List.mem_map_of_mem _ hdf
      have hk := head_sortByKey_min hs (normalizeTrain d) hdm
      have hkd : keyOf (normalizeTrain d).arrivalTime = td := by
        show keyOf (resolveTime d) = td
        rw [htd]
        rfl
      have hkn : keyOf nt.arrivalTime = tn := by rw [harr]; rfl
      rw [hkn, hkd] at hk
      exact hk
  · intro now tP p1 p2 p3 p4 l1 l2 l3 l4 h1 h2 h3 h4 hd hout
    exact computeRecommendation_noTrains h1 h2 h3 h4 hd hout

/-- Witness for C10: among trains at 100000 and 50000 ms (plus a record in
another direction) the 50000 one is selected and is minimal; a feed with no
direction-6 departure produces the no-upcoming-trains response. -/
theorem next_train_selection_witness :
    ((normalizeTrain (rawSched 5 (some 6) 50000)).raw ∈ demoTrainDeps ∧
      (normalizeTrain (rawSched 5 (some 6) 50000)).raw.direction_id = some 6 ∧
      ∃ tn, (normalizeTrain (rawSched 5 (some 6) 50000)).arrivalTime = some tn ∧
        ∀ d ∈ demoTrainDeps, d.direction_id = some 6 →
          ∀ td, resolveTime d = some td → tn ≤ td) ∧
    computeRecommendation 0 demoNoDir6P demoEmptyBusP demoEmptyBusP
      demoEmptyBusP demoEmptyBusP = .ok (.noTrains 0) :=
  ⟨(next_train_selection demoTrainDeps).1
      (normalizeTrain (rawSched 5 (some 6) 50000)) (by decide) (by decide),
    (next_train_selection [rawSched 5 none 10000]).2 0 demoNoDir6P
      demoEmptyBusP demoEmptyBusP demoEmptyBusP demoEmptyBusP [] [] [] []
      rfl rfl rfl rfl rfl (by decide)⟩

/-- C9: ranker tie stability.  The pre-sort option list is built in the
fixed enumeration order Mount Waverley 733, Syndal 703, Syndal 737, Glen
Waverley 742, Glen Waverley 737, and for every destination-arrival value the
tied itineraries appear in `allOptions` in exactly that construction
order. -/
theorem ranker_tie_stability {now : Int} {tP p1 p2 p3 p4 : Payload}
    {r : RecommendationResult}
    (h : computeRecommendation now tP p1 p2 p3 p4 = .ok (.result r)) :
    ∃ opts o1 o2 o3 o4 o5,
      opts = o1 ++ o2 ++ o3 ++ o4 ++ o5 ∧
      (∀ o ∈ o1, o.station = "Mount Waverley" ∧ o.bus.route = "733") ∧
      (∀ o ∈ o2, o.station = "Syndal" ∧ o.bus.route = "703") ∧
      (∀ o ∈ o3, o.station = "Syndal" ∧ o.bus.route = "737") ∧
      (∀ o ∈ o4, o.station = "Glen Waverley" ∧ o.bus.route = "742") ∧
      (∀ o ∈ o5, o.station = "Glen Waverley" ∧ o.bus.route = "737") ∧
      r.allOptions = sortByKey itKey opts ∧
      ∀ k, r.allOptions.filter (fun o => o.arrivalAtMonash == k) =
        opts.filter (fun o => o.arrivalAtMonash == k) := by
  obtain ⟨b1, b2, b3, b4, deps, nt, t, opts, -, -, -, -, -, -, -, hopts, hr⟩ :=
    computeRecommendation_ok_result h
  subst hr
  obtain ⟨o1, o2, o3, o4, o5, g1, g2, g3, g4, g5, rfl⟩ :=
    buildOptions_ok_shape hopts
  refine ⟨_, o1, o2, o3, o4, o5, rfl, ?_, ?_, ?_, ?_, ?_, rfl, ?_⟩
  · intro o ho
    exact ⟨(buildOptionAt_mem g1 o ho).1, (buildOptionAt_mem g1 o ho).2.1⟩
  · intro o ho
    exact ⟨(buildOptionAt_mem g2 o ho).1, (buildOptionAt_mem g2 o ho).2.1⟩
  · intro o ho
    exact ⟨(buildOptionAt_mem g3 o ho).1, (buildOptionAt_mem g3 o ho).2.1⟩
  · intro o ho
    exact ⟨(buildOptionAt_mem g4 o ho).1, (buildOptionAt_mem g4 o ho).2.1⟩
  · intro o ho
    exact ⟨(buildOptionAt_mem g5 o ho).1, (buildOptionAt_mem g5 o ho).2.1⟩
  · intro k
    exact filter_key_sortByKey itKey k (o1 ++ o2 ++ o3 ++ o4 ++ o5)

/-- Witness for C9 at a run whose two itineraries tie at arrival 1200000 ms:
the Mount Waverley 733 itinerary stays before the Syndal 703 one. -/
theorem ranker_tie_stability_witness :
    ∃ opts o1 o2 o3 o4 o5,
      opts = o1 ++ o2 ++ o3 ++ o4 ++ o5 ∧
      (∀ o ∈ o1, o.station = "Mount Waverley" ∧ o.bus.route = "733") ∧
      (∀ o ∈ o2, o.station = "Syndal" ∧ o.bus.route = "703") ∧
      (∀ o ∈ o3, o.station = "Syndal" ∧ o.bus.route = "737") ∧
      (∀ o ∈ o4, o.station = "Glen Waverley" ∧ o.bus.route = "742") ∧
      (∀ o ∈ o5, o.station = "Glen Waverley" ∧ o.bus.route = "737") ∧
      demoTieResult.allOptions = sortByKey itKey opts ∧
      ∀ k, demoTieResult.allOptions.filter (fun o => o.arrivalAtMonash == k) =
        opts.filter (fun o => o.arrivalAtMonash == k) :=
  @ranker_tie_stability 0 demoTrainP demoTieBusP733 demoBusP703 demoEmptyBusP
    demoEmptyBusP demoTieResult rfl

/-- C5 counterexample: a direction-6 train record with no parseable
timestamp is not excluded from the normalized outbound sequence — it is kept
with an invalid resolved instant, selected as the next train, and the
computation then fails with the caught `RangeError` instead of proceeding
unaffected. -/
theorem normalizer_malformed_counterexample :
    outboundOf [rawMalformed 5 (some 6)] =
      [{ raw := rawMalformed 5 (some 6), arrivalTime := none }] ∧
    (outboundOf [rawMalformed 5 (some 6)]).head? =
      some { raw := rawMalformed 5 (some 6), arrivalTime := none } ∧
    computeRecommendation 0 malformedTrainP demoEmptyBusP demoEmptyBusP
      demoEmptyBusP demoEmptyBusP = .error "Invalid time value" :=
  ⟨rfl, rfl, rfl⟩

/-- C5 amended: a bus record without a parseable timestamp is normalized
with an invalid instant rather than dropped from the sequence, but the
Transfer Matcher can never return it, and removing all such records from a
bus list leaves the matcher's result unchanged — so on the bus side the
remainder of the computation proceeds unaffected.  (A malformed train
record, by contrast, can be selected as the next train and aborts the run;
see the counterexample.) -/
theorem normalizer_malformed_amended (l : List EnrichedDep) (ta : Option Int)
    (rs : List String) (m : Int) :
    (∀ e, findNextBus l ta rs m = some e → ∃ d, e.departureTime = some d) ∧
    findNextBus (l.filter (fun d => (resolveTime d.raw).isSome)) ta rs m =
      findNextBus l ta rs m := by
  constructor
  · intro e he
    obtain ⟨t, d, -, hd, -⟩ := findNextBus_some_valid he
    exact ⟨d, hd⟩
  · unfold findNextBus
    have key : ∀ (l : List EnrichedDep),
        ((l.filter (fun d => (resolveTime d.raw).isSome)).map
          normalizeBus).filter
            (fun e => timeGe e.departureTime (addMinutes ta m)) =
        (l.map normalizeBus).filter
          (fun e => timeGe e.departureTime (addMinutes ta m)) := by
      intro l
      induction l with
      | nil => rfl
      | cons d ds ih =>
        cases hres : resolveTime d.raw with
        | none =>
          have h1 : ((d :: ds).filter (fun d => (resolveTime d.raw).isSome)) =
              ds.filter (fun d => (resolveTime d.raw).isSome) := by
            rw [List.filter_cons]
            simp [hres]
          have h2 : timeGe (normalizeBus d).departureTime
              (addMinutes ta m) = false := by
            show timeGe (resolveTime d.raw) (addMinutes ta m) = false
            rw [hres]
            cases addMinutes ta m <;> rfl
          rw [h1, ih, List.map_cons, List.filter_cons, h2]
          simp
        | some td =>
          have h1 : ((d :: ds).filter (fun d => (resolveTime d.raw).isSome)) =
              d :: ds.filter (fun d => (resolveTime d.raw).isSome) := by
            rw [List.filter_cons]
            simp [hres]
          rw [h1, List.map_cons, List.map_cons, List.filter_cons,
            List.filter_cons, ih]
    rw [key]

/-- Witness for C5 amended: on a list holding one malformed and one valid
record the matcher returns the valid one, and pre-dropping the malformed
record changes nothing. -/
theorem normalizer_malformed_amended_witness :
    (∃ d, (normalizeBus (demoBus 240000)).departureTime = some d) ∧
    findNextBus (demoMixedList.filter (fun d => (resolveTime d.raw).isSome))
        (some 0) ["733"] 3 =
      findNextBus demoMixedList (some 0) ["733"] 3 :=
  ⟨(normalizer_malformed_amended demoMixedList (some 0) ["733"] 3).1
      (normalizeBus (demoBus 240000)) (by decide),
    (normalizer_malformed_amended demoMixedList (some 0) ["733"] 3).2⟩

/-- C3 counterexample: when one bus payload's departures array is absent the
whole computation fails with the caught `TypeError` — no
`RecommendationResult` is produced at all — while the same input with the
array present (but empty) succeeds normally. -/
theorem feed_absence_counterexample :
    computeRecommendation 0 demoTrainP missingBusP demoEmptyBusP demoEmptyBusP
      demoEmptyBusP = .error "TypeError: undefined departures" ∧
    computeRecommendation 0 demoTrainP demoEmptyBusP demoEmptyBusP
      demoEmptyBusP demoEmptyBusP = .ok (.result demoEmptyResult) :=
  ⟨rfl, rfl⟩

theorem filter_all_true {α : Type _} {p : α → Bool} {l : List α}
    (h : ∀ x ∈ l, p x = true) : l.filter p = l := by
  induction l with
  | nil => rfl
  | cons x xs ih =>
    rw [List.filter_cons, if_pos (h x (List.mem_cons_self _ _)),
      ih (fun y hy => h y (List.mem_cons_of_mem _ hy))]

theorem filter_all_false {α : Type _} {p : α → Bool} {l : List α}
    (h : ∀ x ∈ l, p x = false) : l.filter p = [] := by
  induction l with
  | nil => rfl
  | cons x xs ih =>
    rw [List.filter_cons, if_neg (by rw [h x (List.mem_cons_self _ _)]; simp),
      ih (fun y hy => h y (List.mem_cons_of_mem _ hy))]

theorem keepOption_mw (e1 e2 e3 e4 : Bool) {o : Itinerary}
    (hs : o.station = "Mount Waverley") :
    keepOption e1 e2 e3 e4 o = !e1 := by
  have c1 : ("Mount Waverley" == "Syndal") = false := rfl
  have c2 : ("Mount Waverley" == "Glen Waverley") = false := rfl
  have c3 : ("Mount Waverley" == "Mount Waverley") = true := rfl
  simp [keepOption, hs, c1, c2, c3]

theorem keepOption_syndal703 (e1 e2 e3 e4 : Bool) {o : Itinerary}
    (hs : o.station = "Syndal") (hr : o.bus.route = "703") :
    keepOption e1 e2 e3 e4 o = !e2 := by
  have c1 : ("Syndal" == "Mount Waverley") = false := rfl
  have c2 : ("Syndal" == "Glen Waverley") = false := rfl
  have c3 : ("Syndal" == "Syndal") = true := rfl
  have c4 : ("703" == "703") = true := rfl
  have c5 : ("703" == "737") = false := rfl
  simp [keepOption, hs, hr, c1, c2, c3, c4, c5]

theorem keepOption_syndal737 (e1 e2 e3 e4 : Bool) {o : Itinerary}
    (hs : o.station = "Syndal") (hr : o.bus.route = "737") :
    keepOption e1 e2 e3 e4 o = !e3 := by
  have c1 : ("Syndal" == "Mount Waverley") = false := rfl
  have c2 : ("Syndal" == "Glen Waverley") = false := rfl
  have c3 : ("Syndal" == "Syndal") = true := rfl
  have c4 : ("737" == "703") = false := rfl
  have c5 : ("737" == "737") = true := rfl
  simp [keepOption, hs, hr, c1, c2, c3, c4, c5]

theorem keepOption_gw (e1 e2 e3 e4 : Bool) {o : Itinerary}
    (hs : o.station = "Glen Waverley") :
    keepOption e1 e2 e3 e4 o = !e4 := by
  have c1 : ("Glen Waverley" == "Mount Waverley") = false := rfl
  have c2 : ("Glen Waverley" == "Syndal") = false := rfl
  have c3 : ("Glen Waverley" == "Glen Waverley") = true := rfl
  simp [keepOption, hs, c1, c2, c3]

theorem filter_keep_flag {e1 e2 e3 e4 : Bool} {os : List Itinerary} {b : Bool}
    (h : ∀ o ∈ os, keepOption e1 e2 e3 e4 o = !b) :
    os.filter (keepOption e1 e2 e3 e4) = if b then [] else os := by
  cases b with
  | false =>
    simp only [Bool.not_false] at h
    simpa using filter_all_true h
  | true =>
    simp only [Bool.not_true] at h
    simpa using filter_all_false h

/-- C3 amended: the computation tolerates any subset of the four bus feeds
being empty: emptying those feeds leaves the run successful, with the same
timestamp and per-station arrivals, and with exactly the itineraries of the
emptied feeds' station/route pairs omitted from the ranked list, all other
itineraries unaffected.  A feed whose departures array is absent, by
contrast, fails the whole computation (see the counterexample). -/
theorem feed_absence_amended {now : Int} {tP p1 p2 p3 p4 : Payload}
    {r : RecommendationResult} (e1 e2 e3 e4 : Bool)
    (h : computeRecommendation now tP p1 p2 p3 p4 = .ok (.result r)) :
    ∃ r', computeRecommendation now tP (blankFeed e1 p1) (blankFeed e2 p2)
        (blankFeed e3 p3) (blankFeed e4 p4) = .ok (.result r') ∧
      r'.timestamp = r.timestamp ∧
      r'.nextTrain = r.nextTrain ∧
      r'.allOptions = r.allOptions.filter (keepOption e1 e2 e3 e4) ∧
      r'.recommendation = r'.allOptions.head? := by
  obtain ⟨b1, b2, b3, b4, deps, nt, t, opts, h1, h2, h3, h4, hd, hnt, ht,
    hopts, hr⟩ := computeRecommendation_ok_result h
  subst hr
  obtain ⟨o1, o2, o3, o4, o5, g1, g2, g3, g4, g5, rfl⟩ :=
    buildOptions_ok_shape hopts
  have hb1 : getBusDeparturesFilter (blankFeed e1 p1) ["733"] =
      .ok (if e1 then { departures := [], routes := p1.routes } else b1) := by
    cases e1
    · exact h1
    · rfl
  have hb2 : getBusDeparturesFilter (blankFeed e2 p2) ["703"] =
      .ok (if e2 then { departures := [], routes := p2.routes } else b2) := by
    cases e2
    · exact h2
    · rfl
  have hb3 : getBusDeparturesFilter (blankFeed e3 p3) ["737"] =
      .ok (if e3 then { departures := [], routes := p3.routes } else b3) := by
    cases e3
    · exact h3
    · rfl
  have hb4 : getBusDeparturesFilter (blankFeed e4 p4) ["742", "737"] =
      .ok (if e4 then { departures := [], routes := p4.routes } else b4) := by
    cases e4
    · exact h4
    · rfl
  have E1 : enrichList (if e1 then { departures := [], routes := p1.routes }
      else b1) "733" = if e1 then [] else enrichList b1 "733" := by
    cases e1 <;> rfl
  have E2 : enrichList (if e2 then { departures := [], routes := p2.routes }
      else b2) "703" = if e2 then [] else enrichList b2 "703" := by
    cases e2 <;> rfl
  have E3 : enrichList (if e3 then { departures := [], routes := p3.routes }
      else b3) "737" = if e3 then [] else enrichList b3 "737" := by
    cases e3 <;> rfl
  have E4 : enrichList (if e4 then { departures := [], routes := p4.routes }
      else b4) "unknown" = if e4 then [] else enrichList b4 "unknown" := by
    cases e4 <;> rfl
  have gg1 : buildOptionAt now "Mount Waverley"
      (trainArrivalsOf (some t)).mountWaverley
      (if e1 then [] else enrichList b1 "733") "733"
      (BUS_TRAVEL_TIMES 733) = .ok (if e1 then [] else o1) := by
    cases e1
    · exact g1
    · rfl
  have gg2 : buildOptionAt now "Syndal" (trainArrivalsOf (some t)).syndal
      (if e2 then [] else enrichList b2 "703") "703"
      (BUS_TRAVEL_TIMES 703) = .ok (if e2 then [] else o2) := by
    cases e2
    · exact g2
    · rfl
  have gg3 : buildOptionAt now "Syndal" (trainArrivalsOf (some t)).syndal
      (if e3 then [] else enrichList b3 "737") "737"
      (BUS_TRAVEL_TIMES 737) = .ok (if e3 then [] else o3) := by
    cases e3
    · exact g3
    · rfl
  have gg4 : buildOptionAt now "Glen Waverley"
      (trainArrivalsOf (some t)).glenWaverley
      ((if e4 then [] else enrichList b4 "unknown").filter
        (fun b => b.routeNumber == "742")) "742"
      (BUS_TRAVEL_TIMES 742) = .ok (if e4 then [] else o4) := by
    cases e4
    · exact g4
    · rfl
  have gg5 : buildOptionAt now "Glen Waverley"
      (trainArrivalsOf (some t)).glenWaverley
      ((if e4 then [] else enrichList b4 "unknown").filter
        (fun b => b.routeNumber == "737")) "737"
      (BUS_TRAVEL_TIMES 737) = .ok (if e4 then [] else o5) := by
    cases e4
    · exact g5
    · rfl
  have hopts2 : buildOptions now (trainArrivalsOf (some t))
      (enrichList (if e1 then { departures := [], routes := p1.routes }
        else b1) "733")
      (enrichList (if e2 then { departures := [], routes := p2.routes }
        else b2) "703")
      (enrichList (if e3 then { departures := [], routes := p3.routes }
        else b3) "737")
      (enrichList (if e4 then { departures := [], routes := p4.routes }
        else b4) "unknown") =
      .ok ((if e1 then [] else o1) ++ (if e2 then [] else o2) ++
        (if e3 then [] else o3) ++ (if e4 then [] else o4) ++
        (if e4 then [] else o5)) := by
    rw [E1, E2, E3, E4]
    exact buildOptions_eval gg1 gg2 gg3 gg4 gg5
  have f1 : o1.filter (keepOption e1 e2 e3 e4) = if e1 then [] else o1 :=
    filter_keep_flag (fun o ho =>
      keepOption_mw e1 e2 e3 e4 (buildOptionAt_mem g1 o ho).1)
  have f2 : o2.filter (keepOption e1 e2 e3 e4) = if e2 then [] else o2 :=
    filter_keep_flag (fun o ho =>
      keepOption_syndal703 e1 e2 e3 e4 (buildOptionAt_mem g2 o ho).1
        (buildOptionAt_mem g2 o ho).2.1)
  have f3 : o3.filter (keepOption e1 e2 e3 e4) = if e3 then [] else o3 :=
    filter_keep_flag (fun o ho =>
      keepOption_syndal737 e1 e2 e3 e4 (buildOptionAt_mem g3 o ho).1
        (buildOptionAt_mem g3 o ho).2.1)
  have f4 : o4.filter (keepOption e1 e2 e3 e4) = if e4 then [] else o4 :=
    filter_keep_flag (fun o ho =>
      keepOption_gw e1 e2 e3 e4 (buildOptionAt_mem g4 o ho).1)
  have f5 : o5.filter (keepOption e1 e2 e3 e4) = if e4 then [] else o5 :=
    filter_keep_flag (fun o ho =>
      keepOption_gw e1 e2 e3 e4 (buildOptionAt_mem g5 o ho).1)
  refine ⟨_, computeRecommendation_eval hb1 hb2 hb3 hb4 hd hnt ht hopts2,
    rfl, rfl, ?_, rfl⟩
  show sortByKey itKey ((if e1 then [] else o1) ++ (if e2 then [] else o2) ++
      (if e3 then [] else o3) ++ (if e4 then [] else o4) ++
      (if e4 then [] else o5)) =
    (sortByKey itKey (o1 ++ o2 ++ o3 ++ o4 ++ o5)).filter
      (keepOption e1 e2 e3 e4)
  rw [filter_sortByKey]
  have : (o1 ++ o2 ++ o3 ++ o4 ++ o5).filter (keepOption e1 e2 e3 e4) =
      (if e1 then [] else o1) ++ (if e2 then [] else o2) ++
      (if e3 then [] else o3) ++ (if e4 then [] else o4) ++
      (if e4 then [] else o5) := by
    simp only [List.filter_append, f1, f2, f3, f4, f5]
  rw [this]

/-- Witness for C3 amended: emptying the Mount Waverley feed of the one-bus
run keeps the run successful with the same arrivals and drops exactly the
Mount Waverley itinerary. -/
theorem feed_absence_amended_witness :
    ∃ r', computeRecommendation 0 demoTrainP (blankFeed true demoBusP733)
        (blankFeed false demoEmptyBusP) (blankFeed false demoEmptyBusP)
        (blankFeed false demoEmptyBusP) = .ok (.result r') ∧
      r'.timestamp = demoOneResult.timestamp ∧
      r'.nextTrain = demoOneResult.nextTrain ∧
      r'.allOptions = demoOneResult.allOptions.filter
        (keepOption true false false false) ∧
      r'.recommendation = r'.allOptions.head? :=
  @feed_absence_amended 0 demoTrainP demoBusP733 demoEmptyBusP demoEmptyBusP
    demoEmptyBusP demoOneResult true false false false rfl
